import Mathlib

/-!
Verification development for the reputation reprocessing workflow
(src/reputation/reprocess.go) and the sfstatus command handler.
Each definition is a shallow embedding of the corresponding Go code,
with external collaborators (message history fetches, the reputation
store, the cancellation context) modelled as explicit oracles.
-/

namespace Reputation

/-- One Discord message, as the scanner sees it: identifier, author
identifier, whether the author is a bot, the raw content, and the result of
parsing its timestamp (none models a parse error, which the code skips). -/
structure Message where
  id : Int
  author : Int
  authorBot : Bool
  content : String
  timestamp : Option Int

/-- models.ReputationConfig, restricted to the single field the scanner
reads: the flag disabling the informal thanks pattern. -/
structure ReputationConfig where
  DisableThanksDetection : Bool

/-- reprocessStats: the shared counters (Go ints, modelled as Int). -/
structure reprocessStats where
  MessagesProcessed : Int
  RepGiven : Int
  UsersAffected : Int
deriving DecidableEq

/-- reprocessStats.Add: MessagesProcessed += messages; RepGiven += rep. -/
def reprocessStats.Add (s : reprocessStats) (messages rep : Int) : reprocessStats :=
  ⟨s.MessagesProcessed + messages, s.RepGiven + rep, s.UsersAffected⟩

/-- reprocessStats.SetUsers: UsersAffected = count. -/
def reprocessStats.SetUsers (s : reprocessStats) (count : Int) : reprocessStats :=
  ⟨s.MessagesProcessed, s.RepGiven, count⟩

/-- reprocessStats.Get: read the three counters. -/
def reprocessStats.Get (s : reprocessStats) : Int × Int × Int :=
  (s.MessagesProcessed, s.RepGiven, s.UsersAffected)

/- ---------- Pattern matcher: the two regexes ----------
giveRepPattern = (?i)!giverep\s+<@!?(\d+)>
thanksPattern  = (?i)thanks\s+<@!?(\d+)>
FindStringSubmatch is embedded as a leftmost search returning the first
captured group (the mention digits) when the pattern matches. -/

/-- The whitespace class of the regex engine: [\t\n\f\r ]. -/
def isSpaceRe (c : Char) : Bool :=
  c == ' ' || c == '\t' || c == '\n' || c == '\r' || c == Char.ofNat 12

/-- Case-insensitive literal match; returns the remainder on success. -/
def matchLit : List Char → List Char → Option (List Char)
  | [], cs => some cs
  | _ :: _, [] => none
  | l :: ls, c :: cs => if c.toLower == l.toLower then matchLit ls cs else none

/-- Greedy run of decimal digits and the remainder. -/
def takeDigits : List Char → List Char × List Char
  | [] => ([], [])
  | c :: cs =>
    if c.isDigit then
      let p := takeDigits cs
      (c :: p.1, p.2)
    else ([], c :: cs)

/-- After the literal keyword: require one or more whitespace characters,
then a mention <@!?(digits)>, returning the captured digits. -/
def matchMentionAfter : List Char → Option (List Char)
  | [] => none
  | c :: rest =>
    if isSpaceRe c then
      match rest.dropWhile isSpaceRe with
      | '<' :: '@' :: r2 =>
        let r3 := match r2 with
          | '!' :: t => t
          | t => t
        let p := takeDigits r3
        if p.1.isEmpty then none
        else
          match p.2 with
          | '>' :: _ => some p.1
          | _ => none
      | _ => none
    else none

/-- Leftmost occurrence of literal-then-mention; the captured digits. -/
def findPat (lit : List Char) : List Char → Option (List Char)
  | [] => none
  | c :: rest =>
    match matchLit lit (c :: rest) with
    | some afterLit =>
      match matchMentionAfter afterLit with
      | some ds => some ds
      | none => findPat lit rest
    | none => findPat lit rest

/-- giveRepPattern.FindStringSubmatch, reduced to its first capture group. -/
def giveRepFind (content : String) : Option String :=
  (findPat "!giverep".data content.data).map (fun ds => String.mk ds)

/-- thanksPattern.FindStringSubmatch, reduced to its first capture group. -/
def thanksFind (content : String) : Option String :=
  (findPat "thanks".data content.data).map (fun ds => String.mk ds)

/-- Decimal digit parse of a character list; none on empty or non-digit. -/
def parseDecDigitsAux : List Char → Nat → Option Nat
  | [], acc => some acc
  | c :: cs, acc =>
    if c.isDigit then parseDecDigitsAux cs (acc * 10 + (c.toNat - 48))
    else none

/-- Decimal parse of a nonempty digit string. -/
def parseDecDigits (cs : List Char) : Option Nat :=
  match cs with
  | [] => none
  | _ :: _ => parseDecDigitsAux cs 0

/-- Modelled from the spec: common.MustParseInt is not under src/ (only its
caller is). The spec states that a mention of user ID 0 or an unparseable
ID is ignored, and the scanning code ignores exactly the parsed value 0, so
the model maps any string that fails to parse as a 64-bit decimal integer
(empty, non-digit, or out of int64 range) to 0, the ignored value. -/
def MustParseInt (s : String) : Int :=
  match parseDecDigits s.data with
  | some n => if n < 2 ^ 63 then (n : Int) else 0
  | none => 0

/- ---------- Per-channel reputation delta (Go map[int64]int64) ---------- -/

/-- A reputation delta: association list from user identifier to point
change, standing in for the Go map (keys unique by construction). -/
abbrev RepMap := List (Int × Int)

/-- Map read with zero default: repChanges[userID] for a possibly absent
key. -/
def getRep : RepMap → Int → Int
  | [], _ => 0
  | e :: rest, u => if e.1 = u then e.2 else getRep rest u

/-- repChanges[userID] += amount on the association list. -/
def incRep : RepMap → Int → Int → RepMap
  | [], k, v => [(k, v)]
  | e :: rest, k, v =>
    if e.1 = k then (e.1, e.2 + v) :: rest else e :: incRep rest k v

/-- The keys of a delta map. -/
def repKeys (m : RepMap) : List Int := m.map (fun e => e.1)

/-- Total contribution recorded for one user across all entries (equal to
getRep when keys are unique). -/
def entrySum : RepMap → Int → Int
  | [], _ => 0
  | e :: rest, u => (if e.1 = u then e.2 else 0) + entrySum rest u

/-- The reputation-pattern step of the per-message loop body, after the
processed counter was incremented: skip bot authors; try the giverep
pattern first and on any match continue to the next message (never falling
through to the thanks check); otherwise, unless disabled, try the thanks
pattern; a matched mention increments the target by one unless the parsed
identifier is 0 or equals the author. -/
def processMsgRep (conf : ReputationConfig) (msg : Message) (repChanges : RepMap) : RepMap :=
  if msg.authorBot then repChanges
  else
    match giveRepFind msg.content with
    | some s =>
      let userID := MustParseInt s
      if userID ≠ 0 ∧ userID ≠ msg.author then incRep repChanges userID 1 else repChanges
    | none =>
      if !conf.DisableThanksDetection then
        match thanksFind msg.content with
        | some s =>
          let userID := MustParseInt s
          if userID ≠ 0 ∧ userID ≠ msg.author then incRep repChanges userID 1 else repChanges
        | none => repChanges
      else repChanges

/-- The inner for-loop of processChannel over one fetched page: parse the
timestamp (skip on failure), return early with the third component true
when a message predates the cutoff, otherwise count the message and apply
the pattern step. -/
def scanMsgs (conf : ReputationConfig) (since : Int) :
    List Message → Nat → RepMap → Nat × RepMap × Bool
  | [], processed, repChanges => (processed, repChanges, false)
  | msg :: rest, processed, repChanges =>
    match msg.timestamp with
    | none => scanMsgs conf since rest processed repChanges
    | some t =>
      if t < since then (processed, repChanges, true)
      else scanMsgs conf since rest (processed + 1) (processMsgRep conf msg repChanges)

/-- One response of the paged message-history fetch: a page of messages or
a fetch error. The history of a channel is the list of successive
responses; past its end the channel is exhausted (empty page). -/
inductive Fetch where
  | ok (msgs : List Message)
  | err

/-- How a channel scan ended: normally, by context cancellation, or by a
fetch error. -/
inductive ScanOutcome where
  | ok
  | ctxErr
  | fetchErr
deriving DecidableEq

/-- Placeholder message used only as the getLastD default on a list that is
known to be nonempty (Go reads messages[len(messages)-1] directly). -/
def emptyMessage : Message := ⟨0, 0, false, "", none⟩

/-- The outer fetch loop of processChannel. The cancellation context is an
oracle consulted once per iteration (the select on ctx.Done), indexed by
the iteration counter; the before cursor advances to the identifier of the
oldest message of each fully scanned page. -/
def processChannelLoop (ctx : Nat → Bool) (conf : ReputationConfig) (since : Int) :
    List Fetch → Nat → Int → Nat → RepMap → Nat × RepMap × ScanOutcome
  | [], i, _beforeID, processed, repChanges =>
    if ctx i then (processed, repChanges, ScanOutcome.ctxErr)
    else (processed, repChanges, ScanOutcome.ok)
  | Fetch.err :: _, i, _beforeID, processed, repChanges =>
    if ctx i then (processed, repChanges, ScanOutcome.ctxErr)
    else (processed, repChanges, ScanOutcome.fetchErr)
  | Fetch.ok msgs :: rest, i, _beforeID, processed, repChanges =>
    if ctx i then (processed, repChanges, ScanOutcome.ctxErr)
    else if msgs.isEmpty then (processed, repChanges, ScanOutcome.ok)
    else
      let res := scanMsgs conf since msgs processed repChanges
      if res.2.2 then (res.1, res.2.1, ScanOutcome.ok)
      else
        processChannelLoop ctx conf since rest (i + 1)
          (msgs.getLastD emptyMessage).id res.1 res.2.1

/-- processChannel: scan one channel from a fresh cursor, empty delta and
zero counter. -/
def processChannel (ctx : Nat → Bool) (conf : ReputationConfig) (since : Int)
    (fetches : List Fetch) : Nat × RepMap × ScanOutcome :=
  processChannelLoop ctx conf since fetches 0 0 0 []

/-- A guild channel: identifier, type tag (0 is GUILD_TEXT) and its
message-history oracle. -/
structure Channel where
  id : Int
  chType : Nat
  fetches : List Fetch

/-- dstate.GuildSet, restricted to what reprocessMessages reads. -/
structure GuildSet where
  id : Int
  channels : List Channel

/-- Result of one per-channel scan as recorded by the orchestrator loop. -/
structure ChanResult where
  chID : Int
  processed : Nat
  rep : RepMap
  outcome : ScanOutcome

/-- The channel loop of reprocessMessages: skip non-text channels, scan the
rest in order, recording each scan result (an error is recorded and the
loop continues to the next channel). -/
def scanChannels (ctx : Nat → Bool) (conf : ReputationConfig) (since : Int) :
    List Channel → List ChanResult
  | [] => []
  | ch :: rest =>
    if ch.chType = 0 then
      let r := processChannel ctx conf since ch.fetches
      ⟨ch.id, r.1, r.2.1, r.2.2⟩ :: scanChannels ctx conf since rest
    else scanChannels ctx conf since rest

/-- repCount: the sum of the values of one channel delta. -/
def repCountOf (changes : RepMap) : Int := (changes.map (fun e => e.2)).sum

/-- The aggregation loop: repChanges[userID] += amount for every entry of
one channel delta. -/
def mergeRep (repChanges : RepMap) (changes : RepMap) : RepMap :=
  changes.foldl (fun acc e => incRep acc e.1 e.2) repChanges

/-- The persistence loop over the aggregated delta: skip zero amounts,
count each remaining user as unique before attempting the upsert, count a
failed upsert (the persistOk oracle models insertUpdateUserRep) as a user
error and continue. Returns (uniqueUsers, userErrors, attempted upserts). -/
def persistLoop (persistOk : Int → Bool) : RepMap → Nat × Nat × List (Int × Int)
  | [] => (0, 0, [])
  | e :: rest =>
    if e.2 = 0 then persistLoop persistOk rest
    else
      let p := persistLoop persistOk rest
      (p.1 + 1, (if persistOk e.1 then p.2.1 else p.2.1 + 1), e :: p.2.2)

/-- Operations performed on the shared reprocessStats object, in program
order: the per-channel Add calls, the close of the stop channel (the
moment after which the reporter can tick no more), and the final SetUsers. -/
inductive StatsAction where
  | add (messages rep : Int)
  | closeStop
  | setUsers (count : Int)
deriving DecidableEq

/-- Effect of one action on the stats object (closeStop touches nothing). -/
def applyAction (s : reprocessStats) : StatsAction → reprocessStats
  | StatsAction.add m r => s.Add m r
  | StatsAction.closeStop => s
  | StatsAction.setUsers n => s.SetUsers n

/-- The stats value visible after a prefix of the action sequence. -/
def statsOfTrace (p : List StatsAction) : reprocessStats :=
  p.foldl applyAction ⟨0, 0, 0⟩

/-- Everything reprocessMessages computes: the returned stats, the two
error counters, the per-channel results, the aggregated delta, the
attempted upserts, the stats action sequence, and the returned error value
(the function ends with return stats, nil — retErr is always none). -/
structure RunOutput where
  stats : reprocessStats
  channelErrors : Nat
  userErrors : Nat
  results : List ChanResult
  agg : RepMap
  attempts : List (Int × Int)
  trace : List StatsAction
  retErr : Option ScanOutcome

/-- reprocessMessages: scan every text channel (errors recorded, loop
continues), Add stats per successful channel, merge the per-channel deltas,
close the stop channel and wait for the reporter, run the persistence loop,
SetUsers, and return the stats with a nil error. Field order: stats,
channelErrors, userErrors, results, agg, attempts, trace, retErr. -/
def reprocessMessages (ctx : Nat → Bool) (gs : GuildSet) (conf : ReputationConfig)
    (since : Int) (persistOk : Int → Bool) : RunOutput :=
  let results := scanChannels ctx conf since gs.channels
  let successes := results.filter (fun r => r.outcome == ScanOutcome.ok)
  let channelErrors := (results.filter (fun r => !(r.outcome == ScanOutcome.ok))).length
  let stats1 := successes.foldl
    (fun s r => s.Add (r.processed : Int) (repCountOf r.rep)) (⟨0, 0, 0⟩ : reprocessStats)
  let agg := successes.foldl (fun a r => mergeRep a r.rep) ([] : RepMap)
  let pres := persistLoop persistOk agg
  ⟨stats1.SetUsers (pres.1 : Int), channelErrors, pres.2.1, results, agg, pres.2.2,
    (successes.map (fun r => StatsAction.add (r.processed : Int) (repCountOf r.rep)))
      ++ [StatsAction.closeStop, StatsAction.setUsers (pres.1 : Int)],
    none⟩

/-- The number of distinct users whose reputation the store actually
recorded: nonzero aggregated delta and a successful upsert. Stated from the
words of the claim, for comparison with the UsersAffected counter. -/
def usersUpdatedOk (persistOk : Int → Bool) (agg : RepMap) : Nat :=
  (agg.filter (fun e => e.2 != 0 && persistOk e.1)).length

/-- Sample message: user 7 grants a point to user 42. -/
def msgGrant42 : Message := ⟨1, 7, false, "!giverep <@42>", some 100⟩

/-- Sample guild with one text channel holding one grant message. -/
def guildOne : GuildSet := ⟨9, [⟨1, 0, [Fetch.ok [msgGrant42]]⟩]⟩

/-- Sample guild with two text channels. -/
def guildTwo : GuildSet :=
  ⟨9, [⟨1, 0, [Fetch.ok [msgGrant42]]⟩, ⟨2, 0, [Fetch.ok []]⟩]⟩

/- ---------- Progress reporter (sendPeriodicUpdates) ---------- -/

/-- One entry of the update schedule: tick spacing (in seconds) and how
many ticks to emit at that spacing (-1 means unlimited). -/
structure updateInterval where
  duration : Nat
  count : Int
deriving DecidableEq

/-- The escalating schedule: 5 ticks at 10 s, 5 at 1 min, 5 at 1 h, then
daily forever. -/
def updateIntervals : List updateInterval :=
  [⟨10, 5⟩, ⟨60, 5⟩, ⟨3600, 5⟩, ⟨86400, -1⟩]

/-- The mutable loop state of sendPeriodicUpdates. -/
structure reporterState where
  currentIntervalIdx : Nat
  updatesAtCurrentInterval : Int
deriving DecidableEq

/-- Bookkeeping performed after each tick: count the update, and when the
current level has a finite count that is reached, move to the next level
(resetting the ticker) if one exists. -/
def tickStep (s : reporterState) : reporterState :=
  let updates := s.updatesAtCurrentInterval + 1
  let ci := updateIntervals.getD s.currentIntervalIdx ⟨0, 0⟩
  if ci.count ≠ -1 ∧ updates ≥ ci.count then
    if s.currentIntervalIdx < updateIntervals.length - 1 then
      ⟨s.currentIntervalIdx + 1, 0⟩
    else ⟨s.currentIntervalIdx, updates⟩
  else ⟨s.currentIntervalIdx, updates⟩

/-- Loop state after n ticks (initial: first level, zero updates). -/
def reporterStateAfter : Nat → reporterState
  | 0 => ⟨0, 0⟩
  | n + 1 => tickStep (reporterStateAfter n)

/-- The ticker spacing, in seconds, between tick n and tick n+1 (0-indexed:
tickGap 0 is the wait before the first tick). -/
def tickGap (n : Nat) : Nat :=
  (updateIntervals.getD (reporterStateAfter n).currentIntervalIdx ⟨0, 0⟩).duration

end Reputation

namespace Stdcommands

/-- The switch on status.Status in Command_sfstatus: every case, the
default included, assigns both statusColor and statusEmoji; the values
bound before the switch are its two arguments. -/
def sfSwitch (status : String) (statusColor : Nat) (statusEmoji : String) : Nat × String :=
  if status == "OK" then (0x2ECC71, "✅")
  else if status == "MAJOR_INCIDENT_CORE" || status == "MAINTENANCE" then (0xE74C3C, "🔴")
  else if status == "MINOR_INCIDENT_CORE" || status == "PERFORMANCE_DEGRADATION" then
    (0xF39C12, "⚠️")
  else (0x95A5A6, "❓")

/-- The color and emoji that reach the embed in Command_sfstatus: the
initial assignments (green, check mark) followed by the switch. The unused
arguments of sfSwitch are exactly the dead initial assignment. -/
def sfStatusColorEmoji (status : String) : Nat × String :=
  sfSwitch status 0x2ECC71 "✅"

/-- Following the words of the spec: compute color and emoji directly from
the status value, with no placebo default before the switch. -/
def sfStatusColorEmojiDirect (status : String) : Nat × String :=
  if status == "OK" then (0x2ECC71, "✅")
  else if status == "MAJOR_INCIDENT_CORE" || status == "MAINTENANCE" then (0xE74C3C, "🔴")
  else if status == "MINOR_INCIDENT_CORE" || status == "PERFORMANCE_DEGRADATION" then
    (0xF39C12, "⚠️")
  else (0x95A5A6, "❓")

end Stdcommands

namespace Reputation

theorem getRep_incRep : ∀ (m : RepMap) (k v u : Int),
    getRep (incRep m k v) u = getRep m u + (if k = u then v else 0) := by
  intro m k v u
  induction m with
  | nil =>
    simp only [incRep, getRep]
    by_cases h : k = u
    · simp [h]
    · simp [h]
  | cons e rest ih =>
    by_cases h1 : e.1 = k
    · rw [show incRep (e :: rest) k v = (e.1, e.2 + v) :: rest from by simp [incRep, h1]]
      simp only [getRep]
      by_cases h2 : e.1 = u
      · rw [if_pos h2, if_pos h2, if_pos (h1 ▸ h2)]
      · rw [if_neg h2, if_neg h2, if_neg (h1 ▸ h2)]
        ring
    · rw [show incRep (e :: rest) k v = e :: incRep rest k v from by simp [incRep, h1]]
      simp only [getRep]
      by_cases h2 : e.1 = u
      · have h3 : ¬ k = u := fun hh => h1 (h2.trans hh.symm)
        rw [if_pos h2, if_pos h2, if_neg h3]
        ring
      · rw [if_neg h2, if_neg h2, ih]

theorem entrySum_of_not_mem : ∀ (m : RepMap) (u : Int), u ∉ repKeys m → entrySum m u = 0 := by
  intro m u
  induction m with
  | nil => intro _; rfl
  | cons e rest ih =>
    intro h
    have h1 : ¬ e.1 = u := by
      intro hh
      exact h (by simp [repKeys, hh])
    have h2 : u ∉ repKeys rest := by
      intro hh
      exact h (by simp [repKeys] at hh ⊢; exact Or.inr hh)
    simp [entrySum, h1, ih h2]

theorem entrySum_eq_getRep : ∀ (m : RepMap) (u : Int),
    (repKeys m).Nodup → entrySum m u = getRep m u := by
  intro m u
  induction m with
  | nil => intro _; rfl
  | cons e rest ih =>
    intro h
    have hnd : (repKeys rest).Nodup := by
      have : (e.1 :: repKeys rest).Nodup := h
      exact this.of_cons
    have hmem : e.1 ∉ repKeys rest := by
      have : (e.1 :: repKeys rest).Nodup := h
      exact (List.nodup_cons.mp this).1
    by_cases he : e.1 = u
    · subst he
      simp [entrySum, getRep, entrySum_of_not_mem rest _ hmem]
    · simp [entrySum, getRep, he, ih hnd]

theorem getRep_mergeRep : ∀ (changes acc : RepMap) (u : Int),
    getRep (mergeRep acc changes) u = getRep acc u + entrySum changes u := by
  intro changes
  induction changes with
  | nil => intro acc u; simp [mergeRep, entrySum]
  | cons e rest ih =>
    intro acc u
    have h1 : mergeRep acc (e :: rest) = mergeRep (incRep acc e.1 e.2) rest := rfl
    rw [h1, ih, getRep_incRep]
    show _ = getRep acc u + ((if e.1 = u then e.2 else 0) + entrySum rest u)
    ring

theorem repKeys_incRep : ∀ (m : RepMap) (k v : Int),
    repKeys (incRep m k v) = if k ∈ repKeys m then repKeys m else repKeys m ++ [k] := by
  intro m k v
  induction m with
  | nil => simp [incRep, repKeys]
  | cons e rest ih =>
    by_cases h : e.1 = k
    · rw [show incRep (e :: rest) k v = (e.1, e.2 + v) :: rest from by simp [incRep, h]]
      have hmem : k ∈ repKeys (e :: rest) := List.mem_cons.mpr (Or.inl h.symm)
      rw [if_pos hmem]
      rfl
    · rw [show incRep (e :: rest) k v = e :: incRep rest k v from by simp [incRep, h]]
      have hkeys : repKeys (e :: incRep rest k v) = e.1 :: repKeys (incRep rest k v) := rfl
      have hkeys2 : repKeys (e :: rest) = e.1 :: repKeys rest := rfl
      rw [hkeys, ih, hkeys2]
      by_cases hk : k ∈ repKeys rest
      · rw [if_pos hk, if_pos (List.mem_cons_of_mem _ hk)]
      · have hnotin : k ∉ e.1 :: repKeys rest := by
          simp only [List.mem_cons]
          push_neg
          exact ⟨fun hh => h hh.symm, hk⟩
        rw [if_neg hk, if_neg hnotin]
        rfl

theorem nodup_repKeys_incRep : ∀ (m : RepMap) (k v : Int),
    (repKeys m).Nodup → (repKeys (incRep m k v)).Nodup := by
  intro m k v h
  rw [repKeys_incRep]
  by_cases hk : k ∈ repKeys m
  · simp [hk, h]
  · simp only [hk, if_false]
    simp [List.nodup_append, h, hk]

theorem processMsgRep_cases : ∀ (conf : ReputationConfig) (msg : Message) (r : RepMap),
    processMsgRep conf msg r = r ∨ ∃ u, processMsgRep conf msg r = incRep r u 1 := by
  intro conf msg r
  unfold processMsgRep
  by_cases hb : msg.authorBot
  · simp [hb]
  · simp only [hb, if_false, Bool.false_eq_true]
    cases hg : giveRepFind msg.content with
    | some s =>
      by_cases hguard : MustParseInt s ≠ 0 ∧ MustParseInt s ≠ msg.author
      · exact Or.inr ⟨MustParseInt s, by simp [hguard]⟩
      · exact Or.inl (by simp [hguard])
    | none =>
      by_cases hf : conf.DisableThanksDetection
      · simp [hf]
      · simp only [hf, Bool.not_false, if_true]
        cases ht : thanksFind msg.content with
        | some s =>
          by_cases hguard : MustParseInt s ≠ 0 ∧ MustParseInt s ≠ msg.author
          · exact Or.inr ⟨MustParseInt s, by simp [hguard]⟩
          · exact Or.inl (by simp [hguard])
        | none => simp

theorem nodup_processMsgRep : ∀ (conf : ReputationConfig) (msg : Message) (r : RepMap),
    (repKeys r).Nodup → (repKeys (processMsgRep conf msg r)).Nodup := by
  intro conf msg r h
  rcases processMsgRep_cases conf msg r with heq | ⟨u, heq⟩
  · rw [heq]; exact h
  · rw [heq]; exact nodup_repKeys_incRep r u 1 h

theorem nodup_scanMsgs : ∀ (conf : ReputationConfig) (since : Int) (l : List Message)
    (processed : Nat) (r : RepMap),
    (repKeys r).Nodup → (repKeys (scanMsgs conf since l processed r).2.1).Nodup := by
  intro conf since l
  induction l with
  | nil => intro p r h; simpa [scanMsgs] using h
  | cons msg rest ih =>
    intro p r h
    cases hts : msg.timestamp with
    | none => simpa [scanMsgs, hts] using ih p r h
    | some t =>
      by_cases hlt : t < since
      · simpa [scanMsgs, hts, hlt] using h
      · simpa [scanMsgs, hts, hlt] using
          ih (p + 1) (processMsgRep conf msg r) (nodup_processMsgRep conf msg r h)

end Reputation

namespace Reputation

theorem nodup_processChannelLoop : ∀ (ctx : Nat → Bool) (conf : ReputationConfig)
    (since : Int) (fetches : List Fetch) (i : Nat) (b : Int) (p : Nat) (r : RepMap),
    (repKeys r).Nodup →
    (repKeys (processChannelLoop ctx conf since fetches i b p r).2.1).Nodup := by
  intro ctx conf since fetches
  induction fetches with
  | nil =>
    intro i b p r h
    by_cases hc : ctx i <;> simp [processChannelLoop, hc] <;> exact h
  | cons f rest ih =>
    intro i b p r h
    cases f with
    | err => by_cases hc : ctx i <;> simp [processChannelLoop, hc] <;> exact h
    | ok msgs =>
      by_cases hc : ctx i
      · simp [processChannelLoop, hc]; exact h
      · by_cases he : msgs.isEmpty
        · simp [processChannelLoop, hc, he]; exact h
        · have hnd := nodup_scanMsgs conf since msgs p r h
          by_cases hearly : (scanMsgs conf since msgs p r).2.2
          · simp [processChannelLoop, hc, he, hearly]; exact hnd
          · simp [processChannelLoop, hc, he, hearly]
            exact ih _ _ _ _ hnd

theorem results_rep_nodup : ∀ (ctx : Nat → Bool) (conf : ReputationConfig) (since : Int)
    (chans : List Channel) (r : ChanResult),
    r ∈ scanChannels ctx conf since chans → (repKeys r.rep).Nodup := by
  intro ctx conf since chans
  induction chans with
  | nil => intro r hr; simp [scanChannels] at hr
  | cons ch rest ih =>
    intro r hr
    by_cases h0 : ch.chType = 0
    · simp only [scanChannels, h0, if_pos] at hr
      rcases List.mem_cons.mp hr with heq | hmem
      · subst heq
        exact nodup_processChannelLoop ctx conf since ch.fetches 0 0 0 [] (by simp [repKeys])
      · exact ih r hmem
    · simp only [scanChannels, h0, if_neg, if_false] at hr
      exact ih r hr

theorem getRep_foldl_merge : ∀ (l : List ChanResult) (a : RepMap) (u : Int),
    (∀ r ∈ l, (repKeys r.rep).Nodup) →
    getRep (l.foldl (fun acc r => mergeRep acc r.rep) a) u
      = getRep a u + (l.map (fun r => getRep r.rep u)).sum := by
  intro l
  induction l with
  | nil => intro a u _; simp
  | cons r rest ih =>
    intro a u hall
    simp only [List.foldl_cons, List.map_cons, List.sum_cons]
    rw [ih _ _ (fun x hx => hall x (List.mem_cons_of_mem _ hx))]
    rw [getRep_mergeRep]
    rw [entrySum_eq_getRep _ _ (hall r (List.mem_cons_self _ _))]
    ring

theorem persistLoop_eq : ∀ (persistOk : Int → Bool) (l : RepMap),
    persistLoop persistOk l
      = ((l.filter (fun e => e.2 != 0)).length,
         (l.filter (fun e => e.2 != 0 && !(persistOk e.1))).length,
         l.filter (fun e => e.2 != 0)) := by
  intro pok l
  induction l with
  | nil => rfl
  | cons e rest ih =>
    by_cases h : e.2 = 0
    · simp [persistLoop, h, ih, List.filter]
    · have hb : (e.2 != 0) = true := by simpa using h
      by_cases hp : pok e.1 <;> simp [persistLoop, h, ih, List.filter, hp, hb]

theorem foldl_applyAction_users : ∀ (q : List StatsAction) (s : reprocessStats),
    (∀ a ∈ q, ∀ n, a ≠ StatsAction.setUsers n) →
    (q.foldl applyAction s).UsersAffected = s.UsersAffected := by
  intro q
  induction q with
  | nil => intro s _; rfl
  | cons a rest ih =>
    intro s hq
    simp only [List.foldl_cons]
    rw [ih _ (fun x hx => hq x (List.mem_cons_of_mem _ hx))]
    cases a with
    | add m r => rfl
    | closeStop => rfl
    | setUsers n => exact absurd rfl (hq _ (List.mem_cons_self _ _) n)

theorem scanMsgs_append_old :
    ∀ (conf : ReputationConfig) (since : Int) (pre : List Message) (m : Message)
      (post : List Message) (t : Int),
      (∀ m2 ∈ pre, ∀ t2, m2.timestamp = some t2 → since ≤ t2) →
      m.timestamp = some t → t < since →
      ∀ (processed : Nat) (repChanges : RepMap),
        scanMsgs conf since (pre ++ m :: post) processed repChanges
          = ((scanMsgs conf since pre processed repChanges).1,
             (scanMsgs conf since pre processed repChanges).2.1, true) := by
  intro conf since pre m post t
  induction pre with
  | nil =>
    intro _ hm ht processed repChanges
    simp [scanMsgs, hm, ht]
  | cons m2 rest ih =>
    intro hpre hm ht processed repChanges
    cases hts : m2.timestamp with
    | none =>
      simp only [List.cons_append, scanMsgs, hts]
      exact ih (fun x hx => hpre x (List.mem_cons_of_mem _ hx)) hm ht processed repChanges
    | some t2 =>
      have hge : since ≤ t2 := hpre m2 (List.mem_cons_self _ _) t2 hts
      simp only [List.cons_append, scanMsgs, hts]
      rw [if_neg (not_lt.mpr hge), if_neg (not_lt.mpr hge)]
      exact ih (fun x hx => hpre x (List.mem_cons_of_mem _ hx)) hm ht _ _

theorem processChannelLoop_canceled : ∀ (ctx : Nat → Bool) (conf : ReputationConfig)
    (since : Int) (fetches : List Fetch) (i : Nat) (b : Int) (p : Nat) (r : RepMap),
    ctx i = true →
    processChannelLoop ctx conf since fetches i b p r = (p, r, ScanOutcome.ctxErr) := by
  intro ctx conf since fetches i b p r h
  cases fetches with
  | nil => simp [processChannelLoop, h]
  | cons f rest =>
    cases f with
    | ok msgs => simp [processChannelLoop, h]
    | err => simp [processChannelLoop, h]

theorem scanChannels_canceled : ∀ (ctx : Nat → Bool) (conf : ReputationConfig)
    (since : Int) (chans : List Channel),
    (∀ i, ctx i = true) →
    scanChannels ctx conf since chans
      = (chans.filter (fun c => c.chType == 0)).map
          (fun c => ⟨c.id, 0, [], ScanOutcome.ctxErr⟩) := by
  intro ctx conf since chans hc
  induction chans with
  | nil => rfl
  | cons ch rest ih =>
    by_cases h0 : ch.chType = 0
    · simp only [scanChannels, h0, if_pos, processChannel,
        processChannelLoop_canceled ctx conf since ch.fetches 0 0 0 [] (hc 0), ih]
      simp [List.filter, h0]
    · simp only [scanChannels, h0, if_neg, if_false, ih]
      have : (ch.chType == 0) = false := by simpa using h0
      simp [List.filter, this]

end Reputation

namespace Reputation

/-- Claim C5: for every message whose content matches one of the two
patterns, if the captured mention parses to the identifier 0 (the digit
string 0 itself, or — under the spec model of MustParseInt — an identifier
that fails 64-bit parsing), the match is ignored: the delta map is
unchanged, and scanning continues normally with the next message, the
current one still counted as processed. -/
theorem zero_or_unparseable_mention_ignored :
    ∀ (conf : ReputationConfig) (msg : Message) (repChanges : RepMap) (s : String),
      (giveRepFind msg.content = some s ∨
        (giveRepFind msg.content = none ∧ thanksFind msg.content = some s)) →
      MustParseInt s = 0 →
      processMsgRep conf msg repChanges = repChanges ∧
        ∀ (since : Int) (rest : List Message) (processed : Nat) (t : Int),
          msg.timestamp = some t → since ≤ t →
          scanMsgs conf since (msg :: rest) processed repChanges
            = scanMsgs conf since rest (processed + 1) repChanges := by
  intro conf msg repChanges s hmatch hz
  have h1 : processMsgRep conf msg repChanges = repChanges := by
    unfold processMsgRep
    rcases hmatch with hg | ⟨hg, hth⟩
    · rw [hg]
      simp [hz]
    · rw [hg]
      simp [hth, hz]
  refine ⟨h1, ?_⟩
  intro since rest processed t hts hge
  simp only [scanMsgs, hts]
  rw [if_neg (not_lt.mpr hge), h1]

/-- Claim C5 witness: a grant directed at the mention of user 0 leaves the
empty delta map empty. -/
theorem zero_or_unparseable_mention_ignored_witness :
    processMsgRep ⟨false⟩ ⟨1, 7, false, "!giverep <@0>", some 100⟩ [] = [] :=
  (zero_or_unparseable_mention_ignored ⟨false⟩ ⟨1, 7, false, "!giverep <@0>", some 100⟩
    [] "0" (Or.inl rfl) rfl).1

/-- Claim C6: a message in which the author mentions themselves (the
captured mention parses to the author identifier) changes no delta, for
the explicit grant pattern and the informal thanks pattern alike. -/
theorem self_grant_no_delta :
    ∀ (conf : ReputationConfig) (msg : Message) (repChanges : RepMap) (s : String),
      (giveRepFind msg.content = some s ∨
        (giveRepFind msg.content = none ∧ thanksFind msg.content = some s)) →
      MustParseInt s = msg.author →
      processMsgRep conf msg repChanges = repChanges := by
  intro conf msg repChanges s hmatch heq
  unfold processMsgRep
  rcases hmatch with hg | ⟨hg, hth⟩
  · rw [hg]
    simp [heq]
  · rw [hg]
    simp [hth, heq]

/-- Claim C6 witness: user 42 granting to their own mention leaves the
empty delta map empty. -/
theorem self_grant_no_delta_witness :
    processMsgRep ⟨false⟩ ⟨1, 42, false, "!giverep <@42>", some 100⟩ [] = [] :=
  self_grant_no_delta ⟨false⟩ ⟨1, 42, false, "!giverep <@42>", some 100⟩ [] "42"
    (Or.inl rfl) rfl

/-- Claim C9: when a message matches both the explicit grant pattern and
the informal thanks pattern (thanks detection enabled) and the grant
capture is a valid target, the grant branch runs and then continues to the
next message, skipping the thanks check: the captured user gains exactly
one point, not two. -/
theorem giverep_match_skips_thanks :
    ∀ (conf : ReputationConfig) (msg : Message) (repChanges : RepMap) (s s2 : String),
      msg.authorBot = false →
      conf.DisableThanksDetection = false →
      giveRepFind msg.content = some s →
      thanksFind msg.content = some s2 →
      MustParseInt s ≠ 0 →
      MustParseInt s ≠ msg.author →
      processMsgRep conf msg repChanges = incRep repChanges (MustParseInt s) 1 ∧
        getRep (processMsgRep conf msg repChanges) (MustParseInt s)
          = getRep repChanges (MustParseInt s) + 1 := by
  intro conf msg repChanges s s2 hb hflag hg hthanks hnz hna
  have h1 : processMsgRep conf msg repChanges = incRep repChanges (MustParseInt s) 1 := by
    unfold processMsgRep
    rw [hg]
    simp [hb, hnz, hna]
  refine ⟨h1, ?_⟩
  rw [h1, getRep_incRep]
  simp

/-- Claim C9 witness: a message matching both patterns for user 42 yields
exactly one point for user 42. -/
theorem giverep_match_skips_thanks_witness :
    getRep (processMsgRep ⟨false⟩ ⟨1, 7, false, "thanks <@42> !giverep <@42>", some 100⟩ [])
        (MustParseInt "42")
      = getRep [] (MustParseInt "42") + 1 :=
  (giverep_match_skips_thanks ⟨false⟩ ⟨1, 7, false, "thanks <@42> !giverep <@42>", some 100⟩
    [] "42" "42" rfl rfl rfl rfl (by decide) (by decide)).2

/-- Claim C3: when a fetched page consists of messages at or after the
cutoff (or with unparseable timestamps) followed by a message strictly
older than the cutoff, the channel scan returns at that first old message:
it is not counted, the counts and delta accumulated so far are returned as
a normal result, and neither the remainder of the page nor any further
fetch is inspected. -/
theorem processChannel_stops_before_cutoff :
    ∀ (ctx : Nat → Bool) (conf : ReputationConfig) (since : Int)
      (pre post : List Message) (m : Message) (t : Int) (rest : List Fetch)
      (i : Nat) (b : Int) (processed : Nat) (repChanges : RepMap),
      ctx i = false →
      (∀ m2 ∈ pre, ∀ t2, m2.timestamp = some t2 → since ≤ t2) →
      m.timestamp = some t → t < since →
      processChannelLoop ctx conf since (Fetch.ok (pre ++ m :: post) :: rest)
          i b processed repChanges
        = ((scanMsgs conf since pre processed repChanges).1,
           (scanMsgs conf since pre processed repChanges).2.1, ScanOutcome.ok) := by
  intro ctx conf since pre post m t rest i b processed repChanges hctx hpre hm ht
  have hne : ((pre ++ m :: post).isEmpty) = false := by
    cases pre <;> rfl
  have hscan := scanMsgs_append_old conf since pre m post t hpre hm ht processed repChanges
  simp only [processChannelLoop, hctx, hne]
  simp [hscan]

/-- Claim C3 witness: a page holding one message older than the cutoff
followed by a younger one, with a fetch error queued behind it, returns
(0, empty, ok) without touching either. -/
theorem processChannel_stops_before_cutoff_witness :
    processChannelLoop (fun _ => false) ⟨false⟩ 50
        [Fetch.ok [⟨2, 7, false, "x", some 10⟩, msgGrant42], Fetch.err] 0 0 0 []
      = ((scanMsgs ⟨false⟩ 50 [] 0 []).1,
         (scanMsgs ⟨false⟩ 50 [] 0 []).2.1, ScanOutcome.ok) :=
  processChannel_stops_before_cutoff (fun _ => false) ⟨false⟩ 50 [] [msgGrant42]
    ⟨2, 7, false, "x", some 10⟩ 10 [Fetch.err] 0 0 0 [] rfl (by simp) rfl (by decide)

end Reputation

namespace Stdcommands

/-- Claim C8: the green value assigned before the status switch is dead:
for every status string, the status cases included and the gray default
included, the color and emoji that reach the embed equal the ones computed
directly from the status value alone. -/
theorem sfstatus_color_switch_determined :
    ∀ status : String, sfStatusColorEmoji status = sfStatusColorEmojiDirect status := by
  intro status
  rfl

end Stdcommands

namespace Reputation

theorem reprocessMessages_retErr (ctx : Nat → Bool) (gs : GuildSet)
    (conf : ReputationConfig) (since : Int) (pok : Int → Bool) :
    (reprocessMessages ctx gs conf since pok).retErr = none := rfl

theorem reprocessMessages_results (ctx : Nat → Bool) (gs : GuildSet)
    (conf : ReputationConfig) (since : Int) (pok : Int → Bool) :
    (reprocessMessages ctx gs conf since pok).results
      = scanChannels ctx conf since gs.channels := rfl

theorem reprocessMessages_channelErrors (ctx : Nat → Bool) (gs : GuildSet)
    (conf : ReputationConfig) (since : Int) (pok : Int → Bool) :
    (reprocessMessages ctx gs conf since pok).channelErrors
      = ((scanChannels ctx conf since gs.channels).filter
          (fun r => !(r.outcome == ScanOutcome.ok))).length := rfl

theorem reprocessMessages_agg (ctx : Nat → Bool) (gs : GuildSet)
    (conf : ReputationConfig) (since : Int) (pok : Int → Bool) :
    (reprocessMessages ctx gs conf since pok).agg
      = ((scanChannels ctx conf since gs.channels).filter
          (fun r => r.outcome == ScanOutcome.ok)).foldl
            (fun a r => mergeRep a r.rep) [] := rfl

theorem reprocessMessages_usersAffected (ctx : Nat → Bool) (gs : GuildSet)
    (conf : ReputationConfig) (since : Int) (pok : Int → Bool) :
    (reprocessMessages ctx gs conf since pok).stats.UsersAffected
      = (((persistLoop pok (reprocessMessages ctx gs conf since pok).agg).1 : Nat) : Int) := rfl

theorem reprocessMessages_userErrors (ctx : Nat → Bool) (gs : GuildSet)
    (conf : ReputationConfig) (since : Int) (pok : Int → Bool) :
    (reprocessMessages ctx gs conf since pok).userErrors
      = (persistLoop pok (reprocessMessages ctx gs conf since pok).agg).2.1 := rfl

theorem reprocessMessages_attempts (ctx : Nat → Bool) (gs : GuildSet)
    (conf : ReputationConfig) (since : Int) (pok : Int → Bool) :
    (reprocessMessages ctx gs conf since pok).attempts
      = (persistLoop pok (reprocessMessages ctx gs conf since pok).agg).2.2 := rfl

theorem reprocessMessages_trace (ctx : Nat → Bool) (gs : GuildSet)
    (conf : ReputationConfig) (since : Int) (pok : Int → Bool) :
    (reprocessMessages ctx gs conf since pok).trace
      = (((scanChannels ctx conf since gs.channels).filter
            (fun r => r.outcome == ScanOutcome.ok)).map
          (fun r => StatsAction.add (r.processed : Int) (repCountOf r.rep)))
        ++ [StatsAction.closeStop,
            StatsAction.setUsers
              (((persistLoop pok (reprocessMessages ctx gs conf since pok).agg).1 : Nat) : Int)] := rfl

/-- Claim C1 counterexample: with the cancellation signal set from the
start and two text channels, the run still visits both channels (two
results, both counted as channel errors) and returns a nil error — the
cancellation is not surfaced as an aborted run. -/
theorem reprocess_cancel_no_abort_cex :
    (reprocessMessages (fun _ => true) guildTwo ⟨false⟩ 0 (fun _ => true)).retErr = none ∧
    (reprocessMessages (fun _ => true) guildTwo ⟨false⟩ 0 (fun _ => true)).channelErrors = 2 ∧
    (reprocessMessages (fun _ => true) guildTwo ⟨false⟩ 0 (fun _ => true)).results.length = 2 :=
  ⟨rfl, rfl, rfl⟩

/-- Claim C1 (amended): when the cancellation signal is set, each channel
scan stops and reports the cancellation as its scan result, but the
Orchestrator treats every such result as an ordinary per-channel error:
it continues through all remaining text channels (one result per text
channel, each with the cancellation outcome) and the run completes
normally with a nil returned error instead of aborting. -/
theorem reprocess_cancel_continues :
    ∀ (ctx : Nat → Bool) (gs : GuildSet) (conf : ReputationConfig) (since : Int)
      (persistOk : Int → Bool),
      (∀ i, ctx i = true) →
      (reprocessMessages ctx gs conf since persistOk).retErr = none ∧
      (reprocessMessages ctx gs conf since persistOk).channelErrors
        = (gs.channels.filter (fun c => c.chType == 0)).length ∧
      ∀ r ∈ (reprocessMessages ctx gs conf since persistOk).results,
        r.outcome = ScanOutcome.ctxErr := by
  intro ctx gs conf since pok hc
  refine ⟨rfl, ?_, ?_⟩
  · rw [reprocessMessages_channelErrors, scanChannels_canceled ctx conf since gs.channels hc]
    generalize (gs.channels.filter (fun c => c.chType == 0)) = l
    induction l with
    | nil => rfl
    | cons c rest ih =>
      have hb : (!(ScanOutcome.ctxErr == ScanOutcome.ok)) = true := rfl
      simp only [List.map_cons, List.filter_cons, hb, if_true, List.length_cons, ih]
  · intro r hr
    rw [reprocessMessages_results, scanChannels_canceled ctx conf since gs.channels hc] at hr
    obtain ⟨c, _, rfl⟩ := List.mem_map.mp hr
    rfl

/-- Claim C1 witness for the amended theorem: the canceled run over the
two-channel sample guild. -/
theorem reprocess_cancel_continues_witness :
    (reprocessMessages (fun _ => true) guildTwo ⟨false⟩ 0 (fun _ => true)).retErr = none ∧
    (reprocessMessages (fun _ => true) guildTwo ⟨false⟩ 0 (fun _ => true)).channelErrors
      = (guildTwo.channels.filter (fun c => c.chType == 0)).length :=
  ⟨(reprocess_cancel_continues (fun _ => true) guildTwo ⟨false⟩ 0 (fun _ => true)
      (fun _ => rfl)).1,
   (reprocess_cancel_continues (fun _ => true) guildTwo ⟨false⟩ 0 (fun _ => true)
      (fun _ => rfl)).2.1⟩

/-- Claim C2 counterexample: one user with a nonzero aggregated delta whose
upsert fails: the UsersAffected counter stored in the stats is 1, yet the
number of distinct users actually updated in the store is 0 (and the
failure is counted as a user error), so the counter does not equal the
number of users updated. -/
theorem usersAffected_counts_failed_update_cex :
    (reprocessMessages (fun _ => false) guildOne ⟨false⟩ 0 (fun _ => false)).stats.UsersAffected
        = 1 ∧
    usersUpdatedOk (fun _ => false)
        (reprocessMessages (fun _ => false) guildOne ⟨false⟩ 0 (fun _ => false)).agg = 0 ∧
    (reprocessMessages (fun _ => false) guildOne ⟨false⟩ 0 (fun _ => false)).userErrors = 1 :=
  ⟨rfl, rfl, rfl⟩

/-- Claim C2 (amended): after all channels are scanned the Orchestrator
attempts an upsert for exactly the users with a nonzero aggregated delta;
the UsersAffected counter equals the number of such users — counting also
those whose persistence failed — a failed upsert is counted as a user
error, and it does not block the remaining users, whose upserts are all
still attempted. -/
theorem usersAffected_counts_attempts :
    ∀ (ctx : Nat → Bool) (gs : GuildSet) (conf : ReputationConfig) (since : Int)
      (persistOk : Int → Bool),
      (reprocessMessages ctx gs conf since persistOk).stats.UsersAffected
        = (((reprocessMessages ctx gs conf since persistOk).agg.filter
            (fun e => e.2 != 0)).length : Int) ∧
      (reprocessMessages ctx gs conf since persistOk).attempts
        = (reprocessMessages ctx gs conf since persistOk).agg.filter (fun e => e.2 != 0) ∧
      (reprocessMessages ctx gs conf since persistOk).userErrors
        = ((reprocessMessages ctx gs conf since persistOk).agg.filter
            (fun e => e.2 != 0 && !(persistOk e.1))).length := by
  intro ctx gs conf since pok
  refine ⟨?_, ?_, ?_⟩
  · rw [reprocessMessages_usersAffected, persistLoop_eq]
  · rw [reprocessMessages_attempts, persistLoop_eq]
  · rw [reprocessMessages_userErrors, persistLoop_eq]

/-- Claim C4: the run-wide aggregated delta of each user equals the sum of
the per-channel deltas of that user over the successfully scanned
channels. -/
theorem agg_delta_eq_sum_per_channel :
    ∀ (ctx : Nat → Bool) (gs : GuildSet) (conf : ReputationConfig) (since : Int)
      (persistOk : Int → Bool) (u : Int),
      getRep (reprocessMessages ctx gs conf since persistOk).agg u
        = (((reprocessMessages ctx gs conf since persistOk).results.filter
              (fun r => r.outcome == ScanOutcome.ok)).map
            (fun r => getRep r.rep u)).sum := by
  intro ctx gs conf since pok u
  rw [reprocessMessages_agg, reprocessMessages_results]
  rw [getRep_foldl_merge]
  · simp [getRep]
  · intro r hr
    exact results_rep_nodup ctx conf since gs.channels r (List.mem_of_mem_filter hr)

/-- Claim C10: any stats value the Reporter can observe has UsersAffected
equal to 0. The Reporter reads the stats only before it observes the close
of the stop channel, and the Orchestrator blocks on the reporter before
calling SetUsers; so every observable read corresponds to a prefix of the
stats action sequence that does not extend past closeStop, and every such
prefix yields UsersAffected = 0. -/
theorem reporter_observes_zero_users :
    ∀ (ctx : Nat → Bool) (gs : GuildSet) (conf : ReputationConfig) (since : Int)
      (persistOk : Int → Bool) (p t : List StatsAction),
      p ++ t = (reprocessMessages ctx gs conf since persistOk).trace →
      StatsAction.closeStop ∉ p.dropLast →
      (statsOfTrace p).UsersAffected = 0 := by
  intro ctx gs conf since pok p t hpt hstop
  rw [reprocessMessages_trace] at hpt
  set A := ((scanChannels ctx conf since gs.channels).filter
      (fun r => r.outcome == ScanOutcome.ok)).map
    (fun r => StatsAction.add (r.processed : Int) (repCountOf r.rep)) with hA
  set u := (((persistLoop pok (reprocessMessages ctx gs conf since pok).agg).1 : Nat) : Int)
    with hu
  have hsplit : A ++ [StatsAction.closeStop, StatsAction.setUsers u]
      = (A ++ [StatsAction.closeStop]) ++ [StatsAction.setUsers u] := by simp
  have hlenp : p.length ≤ A.length + 2 := by
    have h := congrArg List.length hpt
    simp at h
    omega
  by_cases hcase : p.length ≤ A.length + 1
  · have hp : p = (A ++ [StatsAction.closeStop]).take p.length := by
      have h1 : p = (p ++ t).take p.length := (List.take_left p t).symm
      rw [h1, hpt, hsplit, List.take_append_eq_append_take]
      have hz : p.length - (A ++ [StatsAction.closeStop]).length = 0 := by
        simp
        omega
      rw [hz]
      simp
    have hnoset : ∀ a ∈ p, ∀ n, a ≠ StatsAction.setUsers n := by
      intro a ha n
      rw [hp] at ha
      have ha2 : a ∈ A ++ [StatsAction.closeStop] := List.mem_of_mem_take ha
      rcases List.mem_append.mp ha2 with h | h
      · rw [hA] at h
        obtain ⟨r, _, rfl⟩ := List.mem_map.mp h
        simp
      · rw [List.mem_singleton.mp h]
        simp
    rw [show statsOfTrace p = p.foldl applyAction ⟨0, 0, 0⟩ from rfl]
    rw [foldl_applyAction_users p _ hnoset]
  · have hT : t = [] := by
      have h := congrArg List.length hpt
      simp at h
      apply List.eq_nil_of_length_eq_zero
      omega
    subst hT
    rw [List.append_nil] at hpt
    subst hpt
    exfalso
    apply hstop
    rw [hsplit, List.dropLast_concat]
    exact List.mem_append_right _ (List.mem_singleton.mpr rfl)

/-- Claim C10 witness: the shortest observable prefix ending at the stop
signal, taken from the run over the empty guild, shows UsersAffected 0. -/
theorem reporter_observes_zero_users_witness :
    (statsOfTrace [StatsAction.closeStop]).UsersAffected = 0 :=
  reporter_observes_zero_users (fun _ => false) ⟨0, []⟩ ⟨false⟩ 0 (fun _ => true)
    [StatsAction.closeStop] [StatsAction.setUsers 0] rfl (by decide)

theorem reporterStateAfter_ge15 : ∀ k : Nat, reporterStateAfter (15 + k) = ⟨3, (k : Int)⟩ := by
  intro k
  induction k with
  | zero => decide
  | succ k ih =>
    show tickStep (reporterStateAfter (15 + k)) = _
    rw [ih]
    rfl

/-- Claim C7: the tick spacing of sendPeriodicUpdates follows exactly the
schedule 5 ticks at 10 seconds, then 5 at 1 minute, then 5 at 1 hour, then
24 hours forever (tickGap n is the spacing before 0-indexed tick n), and
the spacing never regresses to a shorter interval. -/
theorem reporter_tick_schedule :
    ∀ n : Nat,
      tickGap n = (if n < 5 then 10 else if n < 10 then 60
        else if n < 15 then 3600 else 86400) ∧
      tickGap n ≤ tickGap (n + 1) := by
  have hgap : ∀ n : Nat, tickGap n =
      (if n < 5 then 10 else if n < 10 then 60 else if n < 15 then 3600 else 86400) := by
    intro n
    by_cases h : n < 15
    · interval_cases n <;> decide
    · push_neg at h
      obtain ⟨k, rfl⟩ : ∃ k, n = 15 + k := ⟨n - 15, by omega⟩
      rw [show tickGap (15 + k)
          = (updateIntervals.getD (reporterStateAfter (15 + k)).currentIntervalIdx
              ⟨0, 0⟩).duration from rfl]
      rw [reporterStateAfter_ge15]
      rw [if_neg (by omega), if_neg (by omega), if_neg (by omega)]
      rfl
  intro n
  refine ⟨hgap n, ?_⟩
  rw [hgap n, hgap (n + 1)]
  split_ifs <;> omega

end Reputation
